import Mathlib

/-!
Verification of the PBKDF2/Fernet dictionary-attack scripts.

The Python scripts are embedded shallowly:

* strings are `List Char`; byte strings are `List Nat` (one entry per byte);
* the candidate generator of Fase5_cracker.py and the combinatorial
  calculator of Fase4_final_calculator.py are translated as executable
  functions;
* the external cryptography library (PBKDF2HMAC, urlsafe_b64encode, Fernet)
  is abstracted as a record of pure functions (`CryptoPrimitives`);
  `Fernet.decrypt` returns `Option` — `none` models the `InvalidToken`
  exception, the only exception that call raises for a wrong key or a
  malformed token;
* Python's `bytes.decode` with the utf-8 codec is modelled by a concrete
  RFC 3629 decoder `utf8_decode`; `none` models `UnicodeDecodeError`;
* functions that may raise an exception that escapes the function return
  `Except Unit`; console output of the verifier is modelled as the list of
  printed lines carried in its result.
-/

/-- Python slicing `s[:j] + c + s[j:]`: insert character `c` at position `j`
(as in lines 111 and 116 of Fase5_cracker.py). -/
def insertAt (s : List Char) (j : Nat) (c : Char) : List Char :=
  s.take j ++ [c] ++ s.drop j

/-- Line 106 of Fase5_cracker.py:
`base_word[:i] + base_word[i].upper() + base_word[i+1:]`. -/
def capitalizeAt (base_word : List Char) (i : Nat) : List Char :=
  base_word.take i ++ ((base_word.drop i).take 1).map Char.toUpper
    ++ base_word.drop (i + 1)

/-- The nested loops of `password_generator` (Fase5_cracker.py lines 98-117),
with the module-level `symbols` and `numbers` lists passed explicitly so the
count can be stated for the actual set sizes.  The local names
`capitalized_word` and `word_with_sym` of the source are inlined. -/
def candidate_list (syms digs : List Char) (dictionary : List (List Char)) :
    List (List Char) :=
  dictionary.flatMap fun base_word =>
    (List.range base_word.length).flatMap fun i =>
      syms.flatMap fun symbol =>
        (List.range ((capitalizeAt base_word i).length + 1)).flatMap fun j =>
          digs.flatMap fun number =>
            (List.range ((insertAt (capitalizeAt base_word i) j symbol).length + 1)).map
              fun k => insertAt (insertAt (capitalizeAt base_word i) j symbol) k number

/-- The immutable Target of one attack run (spec section 3): salt bytes,
ciphertext bytes and the PBKDF2 iteration count. -/
structure Target where
  salt : List Nat
  ciphertext : List Nat
  iterations : Nat

/-- The external cryptography library, abstracted as pure functions.
`pbkdf2_sha256 password salt iterations` models `PBKDF2HMAC(...).derive`;
`urlsafe_b64encode` models `base64.urlsafe_b64encode`; `fernet_decrypt key
token` models `Fernet(key).decrypt(token)`, with `none` for the
`InvalidToken` exception. -/
structure CryptoPrimitives where
  pbkdf2_sha256 : List Nat → List Nat → Nat → List Nat
  urlsafe_b64encode : List Nat → List Nat
  fernet_decrypt : List Nat → List Nat → Option (List Nat)

/-- Lines 80-83 of Fase5_cracker.py (also 65-68 of Fase3_benchmark.py):
`key = base64.urlsafe_b64encode(kdf.derive(passwd_bytes))`. -/
def derived_key (cp : CryptoPrimitives) (t : Target) (passwd_bytes : List Nat) :
    List Nat :=
  cp.urlsafe_b64encode (cp.pbkdf2_sha256 passwd_bytes t.salt t.iterations)

/-- RFC 3629 utf-8 decoding of a byte sequence, modelling Python's
`bytes.decode('utf-8')`; `none` models `UnicodeDecodeError`.  Overlong
encodings, surrogates and code points above 0x10FFFF are rejected, as in
Python. -/
def utf8_decode_chars : List Nat → Option (List Char)
  | [] => some []
  | b0 :: rest =>
    if b0 < 0x80 then
      (utf8_decode_chars rest).map fun cs => Char.ofNat b0 :: cs
    else if b0 < 0xC2 then none
    else if b0 < 0xE0 then
      match rest with
      | b1 :: rest1 =>
        if 0x80 ≤ b1 ∧ b1 < 0xC0 then
          (utf8_decode_chars rest1).map fun cs =>
            Char.ofNat ((b0 - 0xC0) * 0x40 + (b1 - 0x80)) :: cs
        else none
      | [] => none
    else if b0 < 0xF0 then
      match rest with
      | b1 :: b2 :: rest2 =>
        if (if b0 = 0xE0 then 0xA0 ≤ b1 ∧ b1 < 0xC0
            else if b0 = 0xED then 0x80 ≤ b1 ∧ b1 < 0xA0
            else 0x80 ≤ b1 ∧ b1 < 0xC0) ∧ 0x80 ≤ b2 ∧ b2 < 0xC0 then
          (utf8_decode_chars rest2).map fun cs =>
            Char.ofNat ((b0 - 0xE0) * 0x1000 + (b1 - 0x80) * 0x40 + (b2 - 0x80)) :: cs
        else none
      | _ => none
    else if b0 < 0xF5 then
      match rest with
      | b1 :: b2 :: b3 :: rest3 =>
        if (if b0 = 0xF0 then 0x90 ≤ b1 ∧ b1 < 0xC0
            else if b0 = 0xF4 then 0x80 ≤ b1 ∧ b1 < 0x90
            else 0x80 ≤ b1 ∧ b1 < 0xC0) ∧
            0x80 ≤ b2 ∧ b2 < 0xC0 ∧ 0x80 ≤ b3 ∧ b3 < 0xC0 then
          (utf8_decode_chars rest3).map fun cs =>
            Char.ofNat ((b0 - 0xF0) * 0x40000 + (b1 - 0x80) * 0x1000
              + (b2 - 0x80) * 0x40 + (b3 - 0x80)) :: cs
        else none
      | _ => none
    else none

/-- Python `bytes.decode('utf-8')` as a `String`-valued partial operation. -/
def utf8_decode (bs : List Nat) : Option String :=
  (utf8_decode_chars bs).map fun cs => String.mk cs

/-- The five lines printed by the success branch of `decrypt`
(Fase5_cracker.py lines 87-91). -/
def success_output (password plaintext : String) : List String :=
  ["\n" ++ String.mk (List.replicate 50 '='),
   "[!!!] SUCCESS! PASSWORD FOUND [!!!]",
   " -> Password: " ++ password,
   " -> Plaintext: " ++ plaintext,
   String.mk (List.replicate 50 '=')]

namespace Fase5

/-- Line 64 of Fase5_cracker.py. -/
def symbols : List Char := ['!', '$', '%', '&', '?', '^', '*', '+', '@', '#']

/-- Line 65 of Fase5_cracker.py: `[str(i) for i in range(10)]`; `str(i)` of a
single decimal digit is the character with code `0x30 + i`. -/
def numbers : List Char := (List.range 10).map fun i => Char.ofNat (0x30 + i)

/-- Line 63 of Fase5_cracker.py (the 9-word list; "password" is absent). -/
def full_dictionary : List (List Char) :=
  ["gatto", "giulia", "martina", "pisa", "poesia", "qwerty", "sicurezza",
   "storia", "tavolo"].map String.toList

/-- Line 54 of Fase5_cracker.py. -/
def ATTACK_MODE : String := "QUICK_TEST"

/-- Lines 68-72 of Fase5_cracker.py. -/
def dictionary_to_use : List (List Char) :=
  if ATTACK_MODE = "QUICK_TEST" then ["sicurezza".toList] else full_dictionary

/-- Lines 98-117 of Fase5_cracker.py; the source function closes over the
module-level `symbols` and `numbers`. -/
def password_generator (dictionary : List (List Char)) : List (List Char) :=
  candidate_list symbols numbers dictionary

/-- Line 58 of Fase5_cracker.py:
the byte string has 16 bytes ('s' = 0x73, '~' = 0x7e, '(' = 0x28,
the apostrophe = 0x27; the rest are explicit hex escapes). -/
def salt : List Nat :=
  [0xd2, 0xff, 0x73, 0x7e, 0xb4, 0xf2, 0xd3, 0xda,
   0xe3, 0x16, 0x28, 0x27, 0xe6, 0xad, 0xef, 0xaf]

/-- Line 59 of Fase5_cracker.py: the Fernet token is an ASCII byte string. -/
def ciphertext : List Nat :=
  ("gAAAAABnE2P-qqJT-HudMbLcykzIx83XqZNEt6UqfyBBzhYKvlF9WSx8FJUvUmatzuY1-io9RHWaj7RVBuAKTWRAVT9GpGC--TZUXk387qeTC2jIJOfUrwSX3eGEb1EVFZBOqALd8EKS1CFWUoF4NpzKsc3eLeCnXihb-w6Boqi835uNzN6mZz4iP-6sSkhNxHP-TbrG-BNgjMIyeRDjSLAZhEAJoUGlz_QuOyyOYHMab9LUrXkHibU=").toList.map Char.toNat

/-- The Target hard-coded by Fase5_cracker.py: the module-level `salt` and
`ciphertext` plus the literal `iterations=100000` of line 81. -/
def target : Target := ⟨salt, ciphertext, 100000⟩

/-- Lines 77-94 of Fase5_cracker.py.  A wrong candidate raises
`InvalidToken`, caught and turned into `False`.  On a successful decryption
the function prints five lines — decoding both the password bytes and the
plaintext bytes as utf-8 — and returns `True`; a `UnicodeDecodeError` from
either `.decode('utf-8')` is not caught and escapes (`Except.error ()`). -/
def decrypt (cp : CryptoPrimitives) (t : Target) (passwd_bytes : List Nat) :
    Except Unit (List String × Bool) :=
  match cp.fernet_decrypt (derived_key cp t passwd_bytes) t.ciphertext with
  | some plaintext =>
    match utf8_decode passwd_bytes, utf8_decode plaintext with
    | some pw, some pt => Except.ok (success_output pw pt, true)
    | _, _ => Except.error ()
  | none => Except.ok ([], false)

end Fase5

namespace Fase3

/-- Line 53 of Fase3_benchmark.py:
`b"\xd2\xffs~\xb4\xf2\xd3\da\xe3\x16('\xe6\xad\xef\xaf"`.
The escape `\d` is not a recognised escape sequence, so Python keeps the
backslash literally: the three characters `\`, `d`, `a` contribute the bytes
0x5c, 0x64, 0x61, and the salt has 18 bytes. -/
def salt : List Nat :=
  [0xd2, 0xff, 0x73, 0x7e, 0xb4, 0xf2, 0xd3, 0x5c, 0x64, 0x61,
   0xe3, 0x16, 0x28, 0x27, 0xe6, 0xad, 0xef, 0xaf]

/-- Line 54 of Fase3_benchmark.py (it differs from the Fase5 token in several
characters). -/
def ciphertext : List Nat :=
  ("gAAAAABmE2P-qqJT-HudMbLcykzIx83XqZNEt6UqfyBBzhYKvlF9WSx8FJUvUmatzuYl-iO9RHwAj7RVBuAkTwRAVT9GpCC--TZUXk387qeTC2jIJOfUrwSX3eGEb1EVFZBOqALd8EKS1CFWUoF4NpzKsc3eLeCnXihb-w6Boqi835uNzN6mZz4iP-6sSkhNxHF-TbrG-BNgjMIyeRDjSLAZHEAJoUGlz_QuOyyOYHMab9LUrXkHibU=").toList.map Char.toNat

/-- The Target hard-coded by Fase3_benchmark.py: its module-level `salt` and
`ciphertext` plus the literal `iterations=100000` of line 66. -/
def target : Target := ⟨salt, ciphertext, 100000⟩

/-- Lines 58-72 of Fase3_benchmark.py: full derivation and decryption
attempt, no output, result discarded; `InvalidToken` is swallowed by
`except ... pass`, so the function always returns normally. -/
def check_password_silent (cp : CryptoPrimitives) (t : Target)
    (passwd_bytes : List Nat) : Except Unit Unit :=
  match cp.fernet_decrypt (derived_key cp t passwd_bytes) t.ciphertext with
  | some _ => Except.ok ()
  | none => Except.ok ()

/-- Line 118 of Fase3_benchmark.py. -/
def total_combinations_example : Nat := 422400

/-- Line 122 of Fase3_benchmark.py, as a function of the two numbers it
divides (spec section 6 calls this interface a pure function of the
closed-form total and the measured throughput). -/
def estimated_time_seconds_worst_case
    (total_combinations_example passwords_per_second : ℚ) : ℚ :=
  total_combinations_example / passwords_per_second

/-- Line 125 of Fase3_benchmark.py. -/
def estimated_time_seconds_avg_case
    (total_combinations_example passwords_per_second : ℚ) : ℚ :=
  estimated_time_seconds_worst_case total_combinations_example passwords_per_second / 2

end Fase3

namespace Fase4

/-- Line 47 of Fase4_final_calculator.py (the 10-word list; "password" is
present). -/
def dictionary : List (List Char) :=
  ["gatto", "giulia", "martina", "password", "pisa", "poesia", "qwerty",
   "sicurezza", "storia", "tavolo"].map String.toList

/-- Line 48 of Fase4_final_calculator.py. -/
def special_chars : List Char := ['!', '$', '%', '&', '?', '^', '*', '+', '@', '#']

/-- Line 49 of Fase4_final_calculator.py. -/
def numbers : List Char := (List.range 10).map fun i => Char.ofNat (0x30 + i)

/-- Lines 67-87 of Fase4_final_calculator.py: `capitalization_options *
number_insertion_options * symbol_insertion_options` for one word. -/
def combinations_for_this_word (word : List Char) : Nat :=
  word.length * (numbers.length * (word.length + 1))
    * (special_chars.length * (word.length + 2))

/-- Lines 64-98 of Fase4_final_calculator.py: the grand total. -/
def total_combinations : Nat := (dictionary.map combinations_for_this_word).sum

/-- Line 55 of Fase4_final_calculator.py. -/
def passwords_per_second : ℚ := 58.13

/-- Line 110 of Fase4_final_calculator.py, as a function of the two numbers
it divides. -/
def time_seconds (total_combinations passwords_per_second : ℚ) : ℚ :=
  total_combinations / passwords_per_second

/-- Line 111 of Fase4_final_calculator.py. -/
def time_minutes (total_combinations passwords_per_second : ℚ) : ℚ :=
  time_seconds total_combinations passwords_per_second / 60

/-- Line 112 of Fase4_final_calculator.py. -/
def time_hours (total_combinations passwords_per_second : ℚ) : ℚ :=
  time_minutes total_combinations passwords_per_second / 60

/-- Line 115 of Fase4_final_calculator.py: the average case halves the
worst-case estimate. -/
def avg_time_hours (total_combinations passwords_per_second : ℚ) : ℚ :=
  time_hours total_combinations passwords_per_second / 2

end Fase4

/-- The main loop of Fase5_cracker.py (lines 126-145) with the verification
outcome abstracted as a boolean function: `attempts` is incremented for each
candidate pulled from the generator, and the loop breaks on the first
success.  The third component records, in order, the candidates actually
passed to the verifier (the observable trace of verifier invocations). -/
def attack_loop (verify : List Char → Bool) :
    List (List Char) → Nat → List (List Char) → Bool × Nat × List (List Char)
  | [], attempts, tested => (false, attempts, tested)
  | password_guess :: rest, attempts, tested =>
    if verify password_guess then (true, attempts + 1, tested ++ [password_guess])
    else attack_loop verify rest (attempts + 1) (tested ++ [password_guess])

/-- The attack driver run from the start state `password_found = False`,
`attempts = 0` (Fase5_cracker.py lines 126-127). -/
def run_attack (verify : List Char → Bool) (password_candidates : List (List Char)) :
    Bool × Nat × List (List Char) :=
  attack_loop verify password_candidates 0 []

/-- Spec wording of step 2 of the enumeration order: "produce a variant with
only that position uppercased (all others unchanged from original casing)". -/
def spec_capitalize (w : List Char) (i : Nat) : List Char :=
  List.modify Char.toUpper i w

/-- The enumeration order exactly as the spec words it (section 4.1, steps
1-6), using `List.insertIdx` for "insert the symbol at position j" and
"insert the digit at position k". -/
def spec_enumeration (wordlist : List (List Char)) (syms digs : List Char) :
    List (List Char) :=
  wordlist.flatMap fun w =>
    (List.range w.length).flatMap fun i =>
      syms.flatMap fun s =>
        (List.range ((spec_capitalize w i).length + 1)).flatMap fun j =>
          digs.flatMap fun d =>
            (List.range ((List.insertIdx j s (spec_capitalize w i)).length + 1)).map
              fun k => List.insertIdx k d (List.insertIdx j s (spec_capitalize w i))

/-- The 26 lowercase ASCII letters; every word of both wordlists consists of
these characters. -/
def ascii_lowercase : List Char :=
  ['a', 'b', 'c', 'd', 'e', 'f', 'g', 'h', 'i', 'j', 'k', 'l', 'm',
   'n', 'o', 'p', 'q', 'r', 's', 't', 'u', 'v', 'w', 'x', 'y', 'z']

/-- A crypto stub whose decryption always fails (every candidate wrong). -/
def stub_fail : CryptoPrimitives := ⟨fun _ _ _ => [], fun k => k, fun _ _ => none⟩

/-- A crypto stub whose decryption succeeds with the ASCII plaintext "hi". -/
def stub_hi : CryptoPrimitives := ⟨fun _ _ _ => [], fun k => k, fun _ _ => some [0x68, 0x69]⟩

/-- A crypto stub whose decryption succeeds with the single byte 0xFF, which
is not valid utf-8. -/
def stub_bad_utf8 : CryptoPrimitives := ⟨fun _ _ _ => [], fun k => k, fun _ _ => some [0xFF]⟩

/-- A minimal Target for exercising the stubs. -/
def stub_target : Target := ⟨[], [], 0⟩

/-- Inserting one character always lengthens a list by one (Python inserts at
the end when the index is past the end). -/
theorem insertAt_length (s : List Char) (j : Nat) (c : Char) :
    (insertAt s j c).length = s.length + 1 := by
  simp [insertAt]
  omega

/-- Uppercasing one position preserves the length. -/
theorem capitalizeAt_length (w : List Char) (i : Nat) :
    (capitalizeAt w i).length = w.length := by
  simp [capitalizeAt]
  omega

/-- Summing a pointwise-constant map counts the elements. -/
theorem sum_map_eq_mul {α : Type} (l : List α) (f : α → Nat) (c : Nat)
    (h : ∀ a ∈ l, f a = c) : (l.map f).sum = l.length * c := by
  induction l with
  | nil => simp
  | cons a l ih =>
    simp only [List.map_cons, List.sum_cons, List.length_cons]
    rw [h a (List.mem_cons_self a l), ih fun b hb => h b (List.mem_cons_of_mem a hb)]
    ring

/-- Closed-form size of the candidate list: each word of length n contributes
n * |syms| * (n+1) * |digs| * (n+2) candidates. -/
theorem candidate_list_length (syms digs : List Char) (dictionary : List (List Char)) :
    (candidate_list syms digs dictionary).length =
      (dictionary.map fun w =>
        w.length * syms.length * (w.length + 1) * digs.length * (w.length + 2)).sum := by
  unfold candidate_list
  rw [List.length_flatMap]
  apply congrArg List.sum
  apply List.map_congr_left
  intro w _
  simp only [Function.comp_apply]
  rw [List.length_flatMap]
  rw [sum_map_eq_mul _ _ (syms.length * ((w.length + 1) * (digs.length * (w.length + 2))))]
  · simp only [List.length_range]
    ring
  intro i _
  simp only [Function.comp_apply]
  rw [List.length_flatMap]
  rw [sum_map_eq_mul _ _ ((w.length + 1) * (digs.length * (w.length + 2)))]
  intro s _
  simp only [Function.comp_apply]
  rw [List.length_flatMap]
  rw [sum_map_eq_mul _ _ (digs.length * (w.length + 2))]
  · simp [capitalizeAt_length]
  intro j _
  simp only [Function.comp_apply]
  rw [List.length_flatMap]
  rw [sum_map_eq_mul _ _ (w.length + 2)]
  intro d _
  simp only [Function.comp_apply]
  simp [insertAt_length, capitalizeAt_length]

/-- The slicing idiom of line 106 agrees with "only position i uppercased". -/
theorem capitalizeAt_eq_modify (w : List Char) (i : Nat) :
    capitalizeAt w i = List.modify Char.toUpper i w := by
  induction w generalizing i with
  | nil => simp [capitalizeAt]
  | cons a w ih =>
    cases i with
    | zero => simp [capitalizeAt, List.modify_zero_cons]
    | succ i =>
      rw [List.modify_succ_cons, ← ih]
      simp [capitalizeAt]

/-- The slicing idiom of lines 111 and 116 agrees with `List.insertIdx` for
in-range positions. -/
theorem insertAt_eq_insertIdx (s : List Char) (j : Nat) (c : Char)
    (h : j ≤ s.length) : insertAt s j c = List.insertIdx j c s := by
  induction j generalizing s with
  | zero => simp [insertAt]
  | succ j ih =>
    cases s with
    | nil => exact absurd h (by simp)
    | cons a s =>
      rw [List.insertIdx_succ_cons, ← ih s (by simpa using h)]
      simp [insertAt]

/-- Pointwise-equal functions give equal flat maps. -/
theorem flatMap_congr_left {α β : Type} (l : List α) (f g : α → List β)
    (h : ∀ a ∈ l, f a = g a) : l.flatMap f = l.flatMap g := by
  show (l.map f).flatten = (l.map g).flatten
  rw [List.map_congr_left h]

/-- Counting a predicate across a single insertion. -/
theorem countP_insertAt (p : Char → Bool) (s : List Char) (j : Nat) (c : Char) :
    (insertAt s j c).countP p = s.countP p + (if p c then 1 else 0) := by
  have h : s.countP p = (s.take j).countP p + (s.drop j).countP p := by
    rw [← List.countP_append, List.take_append_drop]
  simp only [insertAt, List.countP_append, List.countP_cons, List.countP_nil]
  omega

/-- Counting one character across a single insertion. -/
theorem count_insertAt (u : Char) (s : List Char) (j : Nat) (c : Char) :
    (insertAt s j c).count u = s.count u + (if c = u then 1 else 0) := by
  have h : s.count u = (s.take j).count u + (s.drop j).count u := by
    rw [← List.count_append, List.take_append_drop]
  simp only [insertAt, List.count_append, List.count_cons, List.count_nil,
    beq_iff_eq]
  omega

/-- A list splits at any in-range position. -/
theorem eq_take_cons_drop (w : List Char) (i : Nat) (h : i < w.length) :
    w = w.take i ++ w[i] :: w.drop (i + 1) := by
  rw [List.getElem_cons_drop w i h, List.take_append_drop]

/-- For an in-range position the capitalized variant is the original with the
single character at that position uppercased. -/
theorem capitalizeAt_eq_append (w : List Char) (i : Nat) (h : i < w.length) :
    capitalizeAt w i = w.take i ++ w[i].toUpper :: w.drop (i + 1) := by
  unfold capitalizeAt
  rw [← List.getElem_cons_drop w i h]
  simp only [List.take_succ_cons, List.take_zero, List.map_cons, List.map_nil,
    List.append_assoc, List.singleton_append, List.cons_append, List.nil_append]

/-- Exhaustion of the driver loop: when the verifier rejects everything, the
loop consumes the whole sequence, counts every candidate and tests each one. -/
theorem attack_loop_exhausted (verify : List Char → Bool)
    (l : List (List Char)) :
    ∀ (attempts : Nat) (tested : List (List Char)),
      (∀ c ∈ l, verify c = false) →
      attack_loop verify l attempts tested = (false, attempts + l.length, tested ++ l) := by
  induction l with
  | nil => intro attempts tested _; simp [attack_loop]
  | cons g rest ih =>
    intro attempts tested h
    have hg : verify g = false := h g (List.mem_cons_self g rest)
    simp only [attack_loop, hg, Bool.false_eq_true, if_false]
    rw [ih (attempts + 1) (tested ++ [g])
      fun c hc => h c (List.mem_cons_of_mem g hc)]
    have harith : attempts + 1 + rest.length = attempts + (g :: rest).length := by
      simp only [List.length_cons]; omega
    rw [harith]
    simp

/-- Short-circuit of the driver loop: if position m holds the first candidate
the verifier accepts, the loop stops there, having tested exactly the first
m + 1 candidates. -/
theorem attack_loop_found (verify : List Char → Bool) (l : List (List Char)) :
    ∀ (m : Nat) (hm : m < l.length) (attempts : Nat) (tested : List (List Char)),
      (∀ c ∈ l.take m, verify c = false) →
      verify (l.get ⟨m, hm⟩) = true →
      attack_loop verify l attempts tested =
        (true, attempts + m + 1, tested ++ l.take (m + 1)) := by
  induction l with
  | nil => intro m hm; exact absurd hm (by simp)
  | cons g rest ih =>
    intro m hm attempts tested hbefore hfound
    cases m with
    | zero =>
      simp only [List.get] at hfound
      simp [attack_loop, hfound]
    | succ m =>
      have hg : verify g = false := by
        apply hbefore
        simp [List.take_succ_cons, List.mem_cons_self]
      simp only [attack_loop, hg, Bool.false_eq_true, if_false]
      rw [ih m (by simpa using hm) (attempts + 1) (tested ++ [g])
        (fun c hc => hbefore c (by simp [List.take_succ_cons, hc]))
        (by simpa using hfound)]
      have harith : attempts + 1 + m + 1 = attempts + (m + 1) + 1 := by omega
      rw [harith]
      simp [List.take_succ_cons]

/-- Facts about the 26 lowercase letters against the symbol and digit sets of
the cracker, checked by computation. -/
theorem lowercase_char_facts :
    ∀ c ∈ ascii_lowercase,
      (c.toUpper).isUpper = true ∧ c.toUpper ≠ c ∧
      c.toUpper ∉ Fase5.symbols ∧ c.toUpper ∉ Fase5.numbers ∧
      c ∉ Fase5.symbols ∧ c ∉ Fase5.numbers := by decide

/-- The digit set and the symbol set are disjoint. -/
theorem numbers_not_symbols : ∀ d ∈ Fase5.numbers, d ∉ Fase5.symbols := by decide

/-- Claim C1: for every base word w of length n the generator yields exactly
n * |symbols| * (n+1) * |digits| * (n+2) candidates (parameterized by the
actual set sizes, and matching the Fase4 per-word count); the quick-test run
on the single word "sicurezza" with 10 symbols and 10 digits yields exactly
99000 candidates; and the total for an attack is the sum of the per-word
count over the wordlist. -/
theorem claim_C1_candidate_count (syms digs : List Char) (w : List Char)
    (dictionary : List (List Char)) :
    (candidate_list syms digs [w]).length =
      w.length * syms.length * (w.length + 1) * digs.length * (w.length + 2) ∧
    (∀ v : List Char, Fase4.combinations_for_this_word v =
      v.length * Fase4.special_chars.length * (v.length + 1) *
        Fase4.numbers.length * (v.length + 2)) ∧
    (Fase5.password_generator Fase5.dictionary_to_use).length = 99000 ∧
    (candidate_list syms digs dictionary).length =
      (dictionary.map fun v =>
        v.length * syms.length * (v.length + 1) * digs.length * (v.length + 2)).sum := by
  refine ⟨?_, ?_, ?_, candidate_list_length syms digs dictionary⟩
  · rw [candidate_list_length]
    simp
  · intro v
    unfold Fase4.combinations_for_this_word
    ring
  · show (candidate_list Fase5.symbols Fase5.numbers Fase5.dictionary_to_use).length = 99000
    rw [candidate_list_length]
    decide

/-- Claim C2: the generator enumerates candidates in exactly the fixed nested
order the spec describes — words in wordlist order; uppercased position i
left to right; symbols in set order; symbol insertion position j from 0 to
len(capitalized_word) inclusive; digits "0".."9" in order; digit insertion
position k from 0 to len(word_with_symbol) inclusive. -/
theorem claim_C2_enumeration_order (wordlist : List (List Char)) :
    Fase5.password_generator wordlist =
      spec_enumeration wordlist Fase5.symbols
        ['0', '1', '2', '3', '4', '5', '6', '7', '8', '9'] := by
  have hnum : Fase5.numbers = ['0', '1', '2', '3', '4', '5', '6', '7', '8', '9'] := by
    decide
  unfold Fase5.password_generator candidate_list spec_enumeration
  rw [← hnum]
  apply flatMap_congr_left
  intro w _
  apply flatMap_congr_left
  intro i _
  have hcap : capitalizeAt w i = spec_capitalize w i := capitalizeAt_eq_modify w i
  rw [← hcap]
  apply flatMap_congr_left
  intro s _
  apply flatMap_congr_left
  intro j hj
  have hj' : j ≤ (capitalizeAt w i).length := by
    rw [List.mem_range] at hj
    omega
  have hws : insertAt (capitalizeAt w i) j s = List.insertIdx j s (capitalizeAt w i) :=
    insertAt_eq_insertIdx _ j s hj'
  rw [← hws]
  apply flatMap_congr_left
  intro d _
  apply List.map_congr_left
  intro k hk
  exact insertAt_eq_insertIdx _ k d (by rw [List.mem_range] at hk; omega)

/-- Claim C3: whenever authenticated decryption fails (`InvalidToken`, the
single exception Fernet raises for a wrong key or any malformed token, here
`fernet_decrypt = none`), the cracker's verifier returns a plain `False`
without raising, and the benchmark's silent verifier always returns
normally: per-candidate failures never escape to the driver. -/
theorem claim_C3_no_match_is_false (cp : CryptoPrimitives) (t : Target)
    (passwd_bytes : List Nat) :
    (cp.fernet_decrypt (derived_key cp t passwd_bytes) t.ciphertext = none →
      Fase5.decrypt cp t passwd_bytes = Except.ok ([], false)) ∧
    Fase3.check_password_silent cp t passwd_bytes = Except.ok () := by
  constructor
  · intro h
    unfold Fase5.decrypt
    rw [h]
  · unfold Fase3.check_password_silent
    cases cp.fernet_decrypt (derived_key cp t passwd_bytes) t.ciphertext <;> rfl

/-- Witness for C3 at a concrete crypto instance whose decryption fails. -/
theorem claim_C3_witness :
    Fase5.decrypt stub_fail stub_target [] = Except.ok ([], false) ∧
    Fase3.check_password_silent stub_fail stub_target [] = Except.ok () :=
  ⟨(claim_C3_no_match_is_false stub_fail stub_target []).1 rfl,
   (claim_C3_no_match_is_false stub_fail stub_target []).2⟩

/-- Claim C4: the driver tests candidates in generation order and stops at
the first accepted candidate — the tested trace is exactly the first m + 1
candidates and the attempts counter is m + 1; if no candidate is accepted it
terminates exhausted with attempts equal to the closed-form total count. -/
theorem claim_C4_driver_termination (verify : List Char → Bool)
    (dictionary : List (List Char)) :
    (∀ (m : Nat) (hm : m < (Fase5.password_generator dictionary).length),
      (∀ c ∈ (Fase5.password_generator dictionary).take m, verify c = false) →
      verify ((Fase5.password_generator dictionary).get ⟨m, hm⟩) = true →
      run_attack verify (Fase5.password_generator dictionary) =
        (true, m + 1, (Fase5.password_generator dictionary).take (m + 1))) ∧
    ((∀ c ∈ Fase5.password_generator dictionary, verify c = false) →
      run_attack verify (Fase5.password_generator dictionary) =
        (false,
         (dictionary.map fun w =>
           w.length * Fase5.symbols.length * (w.length + 1) *
             Fase5.numbers.length * (w.length + 2)).sum,
         Fase5.password_generator dictionary)) := by
  constructor
  · intro m hm hb hf
    unfold run_attack
    rw [attack_loop_found verify _ m hm 0 [] hb hf]
    simp
  · intro h
    unfold run_attack
    rw [attack_loop_exhausted verify _ 0 [] h]
    unfold Fase5.password_generator
    rw [candidate_list_length]
    simp

/-- Witness for C4: a verifier accepting everything stops after the first
candidate, and a verifier rejecting everything exhausts the space. -/
theorem claim_C4_witness :
    run_attack (fun _ => true) (Fase5.password_generator [['a']]) =
      (true, 1, (Fase5.password_generator [['a']]).take 1) ∧
    run_attack (fun _ => false) (Fase5.password_generator [['a']]) =
      (false,
       ([['a']].map fun w =>
         w.length * Fase5.symbols.length * (w.length + 1) *
           Fase5.numbers.length * (w.length + 2)).sum,
       Fase5.password_generator [['a']]) := by
  constructor
  · have hm : 0 < (Fase5.password_generator [['a']]).length := by
      show 0 < (candidate_list Fase5.symbols Fase5.numbers [['a']]).length
      rw [candidate_list_length]
      decide
    exact (claim_C4_driver_termination (fun _ => true) [['a']]).1 0 hm (by simp) rfl
  · exact (claim_C4_driver_termination (fun _ => false) [['a']]).2 fun _ _ => rfl


/-- Splitting the count of a character at an in-range position. -/
theorem count_split_at (w : List Char) (i : Nat) (h : i < w.length) (u : Char) :
    w.count u = (w.take i).count u + (w.drop (i + 1)).count u
      + (if w[i] = u then 1 else 0) := by
  conv_lhs => rw [eq_take_cons_drop w i h]
  simp only [List.count_append, List.count_cons, beq_iff_eq]
  omega

/-- Splitting the count of a predicate at an in-range position. -/
theorem countP_split_at (w : List Char) (i : Nat) (h : i < w.length)
    (p : Char → Bool) :
    w.countP p = (w.take i).countP p + (w.drop (i + 1)).countP p
      + (if p w[i] then 1 else 0) := by
  conv_lhs => rw [eq_take_cons_drop w i h]
  simp only [List.countP_append, List.countP_cons]
  omega

/-- Character count of the capitalized variant. -/
theorem count_capitalizeAt (w : List Char) (i : Nat) (h : i < w.length) (u : Char) :
    (capitalizeAt w i).count u = (w.take i).count u + (w.drop (i + 1)).count u
      + (if w[i].toUpper = u then 1 else 0) := by
  rw [capitalizeAt_eq_append w i h]
  simp only [List.count_append, List.count_cons, beq_iff_eq]
  omega

/-- Predicate count of the capitalized variant. -/
theorem countP_capitalizeAt (w : List Char) (i : Nat) (h : i < w.length)
    (p : Char → Bool) :
    (capitalizeAt w i).countP p = (w.take i).countP p + (w.drop (i + 1)).countP p
      + (if p (w[i].toUpper) then 1 else 0) := by
  rw [capitalizeAt_eq_append w i h]
  simp only [List.countP_append, List.countP_cons]
  omega

/-- Claim C5: both wordlists consist of lowercase ASCII letters, and for any
such base word w every candidate the generator yields from w has length
len(w) + 2 and passes the structural inverse check: some uppercase letter
occurs exactly once more than in the lowercase original, and exactly one
symbol-set character and exactly one digit-set character beyond the base
word's characters are present. -/
theorem claim_C5_structural_inverse :
    (∀ w ∈ Fase5.full_dictionary ++ Fase4.dictionary, ∀ c ∈ w, c ∈ ascii_lowercase) ∧
    ∀ w : List Char, (∀ c ∈ w, c ∈ ascii_lowercase) →
      ∀ cand ∈ Fase5.password_generator [w],
        cand.length = w.length + 2 ∧
        (∃ u : Char, u.isUpper = true ∧ cand.count u = w.count u + 1) ∧
        cand.countP (fun c => decide (c ∈ Fase5.symbols)) =
          w.countP (fun c => decide (c ∈ Fase5.symbols)) + 1 ∧
        cand.countP (fun c => decide (c ∈ Fase5.numbers)) =
          w.countP (fun c => decide (c ∈ Fase5.numbers)) + 1 := by
  constructor
  · decide
  intro w hw cand hc
  unfold Fase5.password_generator candidate_list at hc
  obtain ⟨w', hw', hc1⟩ := List.mem_flatMap.mp hc
  clear hc
  rw [List.mem_singleton] at hw'
  replace hw' := hw'.symm
  subst hw'
  obtain ⟨i, hi, hc2⟩ := List.mem_flatMap.mp hc1
  clear hc1
  rw [List.mem_range] at hi
  obtain ⟨s, hs, hc3⟩ := List.mem_flatMap.mp hc2
  clear hc2
  obtain ⟨j, hj, hc4⟩ := List.mem_flatMap.mp hc3
  clear hc3
  obtain ⟨d, hd, hc5⟩ := List.mem_flatMap.mp hc4
  clear hc4
  obtain ⟨k, hk, hcand⟩ := List.mem_map.mp hc5
  clear hc5
  subst hcand
  have hwi : w[i] ∈ ascii_lowercase := hw w[i] (List.getElem_mem hi)
  obtain ⟨hupper, hne_self, hup_sym, hup_num, hself_sym, hself_num⟩ :=
    lowercase_char_facts w[i] hwi
  refine ⟨?_, ⟨w[i].toUpper, hupper, ?_⟩, ?_, ?_⟩
  · rw [insertAt_length, insertAt_length, capitalizeAt_length]
  · have hs_ne : s ≠ w[i].toUpper := fun h => hup_sym (h ▸ hs)
    have hd_ne : d ≠ w[i].toUpper := fun h => hup_num (h ▸ hd)
    have hw_ne : w[i] ≠ w[i].toUpper := fun h => hne_self h.symm
    rw [count_insertAt, count_insertAt, count_capitalizeAt w i hi,
      count_split_at w i hi]
    simp only [if_neg hs_ne, if_neg hd_ne, if_neg hw_ne, eq_self_iff_true, if_true]
  · have hps : decide (s ∈ Fase5.symbols) = true := decide_eq_true hs
    have hpd : decide (d ∈ Fase5.symbols) = false :=
      decide_eq_false (numbers_not_symbols d hd)
    have hpu : decide (w[i].toUpper ∈ Fase5.symbols) = false := decide_eq_false hup_sym
    have hpw : decide (w[i] ∈ Fase5.symbols) = false := decide_eq_false hself_sym
    rw [countP_insertAt, countP_insertAt, countP_capitalizeAt w i hi,
      countP_split_at w i hi]
    simp only [hps, hpd, hpu, hpw, Bool.false_eq_true, if_false,
      eq_self_iff_true, if_true]
  · have hps : decide (s ∈ Fase5.numbers) = false :=
      decide_eq_false fun h => (numbers_not_symbols s h) hs
    have hpd : decide (d ∈ Fase5.numbers) = true := decide_eq_true hd
    have hpu : decide (w[i].toUpper ∈ Fase5.numbers) = false := decide_eq_false hup_num
    have hpw : decide (w[i] ∈ Fase5.numbers) = false := decide_eq_false hself_num
    rw [countP_insertAt, countP_insertAt, countP_capitalizeAt w i hi,
      countP_split_at w i hi]
    simp only [hps, hpd, hpu, hpw, Bool.false_eq_true, if_false,
      eq_self_iff_true, if_true]

/-- Witness for C5 at the base word "a" and its first generated candidate
"0!A". -/
theorem claim_C5_witness :
    (['0', '!', 'A'] : List Char).length = (['a'] : List Char).length + 2 ∧
    (∃ u : Char, u.isUpper = true ∧
      (['0', '!', 'A'] : List Char).count u = (['a'] : List Char).count u + 1) ∧
    (['0', '!', 'A'] : List Char).countP (fun c => decide (c ∈ Fase5.symbols)) =
      (['a'] : List Char).countP (fun c => decide (c ∈ Fase5.symbols)) + 1 ∧
    (['0', '!', 'A'] : List Char).countP (fun c => decide (c ∈ Fase5.numbers)) =
      (['a'] : List Char).countP (fun c => decide (c ∈ Fase5.numbers)) + 1 :=
  claim_C5_structural_inverse.2 ['a'] (by decide) ['0', '!', 'A'] (by decide)


/-- When Fernet decryption succeeds, the verifier reduces to the inner
utf-8-decoding match of its success branch. -/
theorem decrypt_eq_some (cp : CryptoPrimitives) (t : Target)
    (passwd_bytes pt : List Nat)
    (h : cp.fernet_decrypt (derived_key cp t passwd_bytes) t.ciphertext = some pt) :
    Fase5.decrypt cp t passwd_bytes =
      match utf8_decode passwd_bytes, utf8_decode pt with
      | some pw, some pts => Except.ok (success_output pw pts, true)
      | _, _ => Except.error () := by
  unfold Fase5.decrypt
  rw [h]

/-- When Fernet decryption fails, the verifier returns plain no-match. -/
theorem decrypt_eq_none (cp : CryptoPrimitives) (t : Target)
    (passwd_bytes : List Nat)
    (h : cp.fernet_decrypt (derived_key cp t passwd_bytes) t.ciphertext = none) :
    Fase5.decrypt cp t passwd_bytes = Except.ok ([], false) := by
  unfold Fase5.decrypt
  rw [h]

/-- Counterexample to C6: at a crypto instance whose decryption succeeds, the
verifier of Fase5_cracker.py prints a non-empty batch of console lines (the
success banner with password and plaintext) before returning True, so
verification is not free of I/O. -/
theorem claim_C6_counterexample :
    Fase5.decrypt stub_hi stub_target [0x68, 0x69] =
      Except.ok (success_output "hi" "hi", true) ∧
    success_output "hi" "hi" ≠ [] := by
  constructor
  · rfl
  · simp [success_output]

/-- Claim C6 as amended: the Verifier is deterministic — two invocations on
the same candidate and Target give the same result — and performs no I/O on
a no-match result; only the success branch prints (the original claim's "no
I/O" does not hold there). -/
theorem claim_C6_deterministic_verifier (cp : CryptoPrimitives) (t : Target)
    (passwd_bytes : List Nat) :
    Fase5.decrypt cp t passwd_bytes = Fase5.decrypt cp t passwd_bytes ∧
    Fase3.check_password_silent cp t passwd_bytes =
      Fase3.check_password_silent cp t passwd_bytes ∧
    ∀ out : List String,
      Fase5.decrypt cp t passwd_bytes = Except.ok (out, false) → out = [] := by
  refine ⟨rfl, rfl, ?_⟩
  intro out h
  rcases hf : cp.fernet_decrypt (derived_key cp t passwd_bytes) t.ciphertext with _ | pt
  · rw [decrypt_eq_none cp t passwd_bytes hf] at h
    simp only [Except.ok.injEq, Prod.mk.injEq] at h
    exact h.1.symm
  · rw [decrypt_eq_some cp t passwd_bytes pt hf] at h
    cases hpw : utf8_decode passwd_bytes with
    | none => rw [hpw] at h; cases hpt : utf8_decode pt <;> rw [hpt] at h <;> simp at h
    | some spw =>
      rw [hpw] at h
      cases hpt : utf8_decode pt <;> rw [hpt] at h <;> simp at h

/-- Witness for the amended C6 at a concrete failing crypto instance. -/
theorem claim_C6_witness :
    Fase5.decrypt stub_fail stub_target [] = Fase5.decrypt stub_fail stub_target [] ∧
    ([] : List String) = [] :=
  ⟨(claim_C6_deterministic_verifier stub_fail stub_target []).1,
   (claim_C6_deterministic_verifier stub_fail stub_target []).2.2 [] rfl⟩

/-- Claim C7: for every closed-form total T and throughput r > 0, both
estimation scripts produce a worst-case estimate of exactly T / r seconds
and an average-case estimate of exactly T / (2r) (Fase4 reports the average
case in hours, i.e. divided by 3600). -/
theorem claim_C7_time_estimates (T r : ℚ) (_hr : 0 < r) :
    Fase3.estimated_time_seconds_worst_case T r = T / r ∧
    Fase3.estimated_time_seconds_avg_case T r = T / (2 * r) ∧
    Fase4.time_seconds T r = T / r ∧
    Fase4.avg_time_hours T r = T / (2 * r) / 3600 := by
  refine ⟨rfl, ?_, rfl, ?_⟩
  · unfold Fase3.estimated_time_seconds_avg_case Fase3.estimated_time_seconds_worst_case
    rw [div_div]
    congr 1
    ring
  · unfold Fase4.avg_time_hours Fase4.time_hours Fase4.time_minutes Fase4.time_seconds
    rw [div_div, div_div, div_div, div_div]
    congr 1
    ring

/-- Witness for C7 at T = 422400 and r = 100. -/
theorem claim_C7_witness :
    Fase3.estimated_time_seconds_worst_case 422400 100 = 422400 / 100 ∧
    Fase3.estimated_time_seconds_avg_case 422400 100 = 422400 / (2 * 100) ∧
    Fase4.time_seconds 422400 100 = 422400 / 100 ∧
    Fase4.avg_time_hours 422400 100 = 422400 / (2 * 100) / 3600 :=
  claim_C7_time_estimates 422400 100 (by norm_num)

/-- Claim C8 is wrong about the code: Fase5's hardcoded salt is 16 bytes and
both scripts use 100000 iterations, but the salt literal of
Fase3_benchmark.py contains the invalid escape sequence backslash-d (a slip
for the hex escape of 0xda), which Python keeps literally, producing an
18-byte salt that differs from Fase5's — despite Fase3's own comment that it
uses the REAL salt of the exercise. -/
theorem claim_C8_salt_mismatch :
    Fase5.target.salt.length = 16 ∧
    Fase5.target.iterations = 100000 ∧
    Fase3.target.iterations = 100000 ∧
    Fase3.target.salt.length = 18 ∧
    Fase3.target.salt ≠ Fase5.target.salt := by decide

/-- Claim C9: whenever Fernet decryption succeeds, the cracker's verifier
raises an uncaught decoding exception if the plaintext bytes or the
candidate bytes are not valid utf-8, and otherwise prints a non-empty
success banner (console I/O) before returning True. -/
theorem claim_C9_success_branch (cp : CryptoPrimitives) (t : Target)
    (passwd_bytes plaintext : List Nat)
    (hdec : cp.fernet_decrypt (derived_key cp t passwd_bytes) t.ciphertext =
      some plaintext) :
    (utf8_decode passwd_bytes = none ∨ utf8_decode plaintext = none →
      Fase5.decrypt cp t passwd_bytes = Except.error ()) ∧
    ∀ pw pt : String, utf8_decode passwd_bytes = some pw →
      utf8_decode plaintext = some pt →
      Fase5.decrypt cp t passwd_bytes = Except.ok (success_output pw pt, true) ∧
      success_output pw pt ≠ [] := by
  rw [decrypt_eq_some cp t passwd_bytes plaintext hdec]
  constructor
  · intro h
    rcases h with h | h
    · rw [h]
    · rw [h]
      cases hpw : utf8_decode passwd_bytes <;> rfl
  · intro pw pt hpw hpt
    rw [hpw, hpt]
    exact ⟨rfl, by simp [success_output]⟩

/-- Witness for C9: a crypto instance yielding the invalid utf-8 plaintext
0xFF makes the verifier raise, and one yielding "hi" takes the printing
success branch. -/
theorem claim_C9_witness :
    Fase5.decrypt stub_bad_utf8 stub_target [0x68, 0x69] = Except.error () ∧
    Fase5.decrypt stub_hi stub_target [0x68, 0x69] =
      Except.ok (success_output "hi" "hi", true) := by
  constructor
  · exact (claim_C9_success_branch stub_bad_utf8 stub_target [0x68, 0x69] [0xFF]
      rfl).1 (Or.inr (by decide))
  · exact ((claim_C9_success_branch stub_hi stub_target [0x68, 0x69] [0x68, 0x69]
      rfl).2 "hi" "hi" (by decide) (by decide)).1

/-- Claim C10: the calculator's 10-word dictionary contains "password" while
the cracker's FULL-mode dictionary has only 9 words and omits it; the
calculator's closed-form total is 422400, the cracker's FULL-mode candidate
space has exactly 350400 candidates — 72000 fewer, the count for "password"
(length 8) — and exhausting FULL mode therefore records 350400 attempts, not
the calculator's total. -/
theorem claim_C10_dictionary_mismatch :
    "password".toList ∈ Fase4.dictionary ∧
    Fase4.dictionary.length = 10 ∧
    "password".toList ∉ Fase5.full_dictionary ∧
    Fase5.full_dictionary.length = 9 ∧
    Fase4.total_combinations = 422400 ∧
    (Fase5.password_generator Fase5.full_dictionary).length = 350400 ∧
    Fase4.total_combinations -
      (Fase5.password_generator Fase5.full_dictionary).length = 72000 ∧
    Fase4.combinations_for_this_word "password".toList = 72000 ∧
    ∀ verify : List Char → Bool,
      (∀ c ∈ Fase5.password_generator Fase5.full_dictionary, verify c = false) →
      run_attack verify (Fase5.password_generator Fase5.full_dictionary) =
        (false, 350400, Fase5.password_generator Fase5.full_dictionary) := by
  have hlen : (Fase5.password_generator Fase5.full_dictionary).length = 350400 := by
    show (candidate_list Fase5.symbols Fase5.numbers Fase5.full_dictionary).length = 350400
    rw [candidate_list_length]
    decide
  refine ⟨by decide, by decide, by decide, by decide, by decide, hlen, ?_, by decide, ?_⟩
  · rw [hlen]
    decide
  · intro verify hv
    unfold run_attack
    rw [attack_loop_exhausted verify _ 0 [] hv]
    rw [Nat.zero_add, hlen]
    simp

/-- Witness for C10's driver conjunct: a verifier rejecting everything
exhausts the FULL-mode space at 350400 attempts. -/
theorem claim_C10_witness :
    run_attack (fun _ => false) (Fase5.password_generator Fase5.full_dictionary) =
      (false, 350400, Fase5.password_generator Fase5.full_dictionary) :=
  claim_C10_dictionary_mismatch.2.2.2.2.2.2.2.2 (fun _ => false) fun _ _ => rfl
